import Mathlib

/-!
# Verification of the bounded concurrent fetch pattern in `call_check`

This development embeds, in Lean 4, the data model and the operations of the
`call_check` dashboard repository that its specification talks about:

* the Python `dict` used as a `ResultMap` (association list with
  insert-overwrite semantics);
* `get_sentiment` and `fetch_all_sentiments` from `pages/Agents_dashboard.py`;
* `fetch_summary` from `pages/No_Incident_Number.py`,
  `fetch_sentiment` from `pages/No_Sentiments_No_Summary.py`,
  `fetch_transcript` and `fetch_sentiment` from `pages/Day_wise_analyzer.py`;
* the retry loop `get_summary` from `call.py` (the same shape as
  `generate_summary` in `pages/Day_wise_analyzer.py`);
* `extract_incident` from `pages/Day_wise_analyzer.py`;
* `compare_with_embeddings` from `pages/Call_vs_incident.py`;
* a small-step model of the fixed-size `ThreadPoolExecutor` worker pool.

The remote HTTP world is modelled as an environment mapping each call
identifier to the outcome of the HTTP request for it: a 2xx response with a
JSON object body (the documented shape of the CloudTalk AI endpoints, whose
fields the pages read with `.get`), a non-2xx status (`raise_for_status`
raises `HTTPError`), or a request-level failure (connection error, timeout,
malformed body — all surfacing as `requests.exceptions.RequestException`,
of which `HTTPError` and `JSONDecodeError` are subclasses).  Thread
scheduling of `concurrent.futures.as_completed` is modelled by an explicit
completion order, a permutation of the submitted identifiers; theorems
quantify over that order.

The file lists all definitions first, then all theorems.
-/

namespace CallCheck

/-! ## Definitions -/

/-- Python dict assignment `d[k] = v`: overwrite the binding in place when
the key is present, else append a fresh binding at the end (insertion
order is preserved, as in Python 3.7+ dicts). -/
def dinsert {K V : Type} [DecidableEq K] (k : K) (v : V) :
    List (K × V) → List (K × V)
  | [] => [(k, v)]
  | (k', v') :: rest =>
      if k' = k then (k, v) :: rest else (k', v') :: dinsert k v rest

/-- Python dict lookup `d.get(k)`. -/
def dlookup {K V : Type} [DecidableEq K] (k : K) :
    List (K × V) → Option V
  | [] => none
  | (k', v') :: rest => if k' = k then some v' else dlookup k rest

/-- Keys of a Python dict, in iteration order. -/
def dkeys {K V : Type} (d : List (K × V)) : List K := d.map Prod.fst

/-- Outcome of one HTTP GET against an AI endpoint (`requests.get` +
`raise_for_status` + `.json()`). -/
inductive HttpResult : Type
  /-- Status 2xx; the JSON body, an object with the given string fields. -/
  | ok (body : List (String × String))
  /-- Non-2xx status: `raise_for_status` raises `HTTPError`. -/
  | httpError
  /-- Request-level failure: `requests.get` (or decoding the body) raises a
  `requests.exceptions.RequestException`. -/
  | requestError
deriving DecidableEq

/-- Environment: what the remote returns for each call identifier on the
sentiment/summary endpoint. -/
def Env : Type := Nat → HttpResult

/-- Failure of the request for `cid`: the fetch raises (non-2xx status or
request exception) instead of delivering a body. -/
def envFails (env : Env) (cid : Nat) : Prop :=
  env cid = HttpResult.httpError ∨ env cid = HttpResult.requestError

instance (env : Env) (cid : Nat) : Decidable (envFails env cid) := by
  unfold envFails
  infer_instance

/-- Model of `get_sentiment` (Agents_dashboard.py, lines 42–50): on success
return `(body.get("overallSentiment", "unknown"), "OK")`; on any
`RequestException` return `("unknown", "Not found")`. -/
def get_sentiment (env : Env) (cid : Nat) : String × String :=
  match env cid with
  | HttpResult.ok body => ((dlookup "overallSentiment" body).getD "unknown", "OK")
  | HttpResult.httpError => ("unknown", "Not found")
  | HttpResult.requestError => ("unknown", "Not found")

/-- One batch round: the `for future in as_completed(futures)` loop writing
`results[cid] = f(cid)`, where `order` is the completion order of the
futures (a permutation of the submitted identifiers). -/
def runBatch {K V : Type} [DecidableEq K] (f : K → V) (order : List K) :
    List (K × V) :=
  order.foldl (fun acc k => dinsert k (f k) acc) []

/-- Model of `fetch_all_sentiments` (Agents_dashboard.py, lines 53–66):
submit one `fetch_single` future per identifier in `call_ids` (one
`get_sentiment` call per future), collect `results[cid] =
get_sentiment(cid)` in completion order. -/
def fetch_all_sentiments (env : Env) (order : List Nat) :
    List (Nat × (String × String)) :=
  runBatch (get_sentiment env) order

/-- Snapshot of one batch inside `ThreadPoolExecutor`: identifiers not yet
claimed, identifiers whose fetch is in flight, and completed results. -/
structure PoolState (K V : Type) where
  pending : List K
  running : List K
  done : List (K × V)

/-- Initial state of a batch over `ids`: all submitted, none started. -/
def poolInit {K V : Type} (ids : List K) : PoolState K V :=
  ⟨ids, [], []⟩

/-- One scheduler step of a pool of `C` workers executing the fetch
function `f` (`ThreadPoolExecutor(max_workers=C)`): start the next queued
task when a worker is free, or retire a finished task into the results.
Per work item the lifecycle is linear: pending, in flight, completed. -/
inductive PoolStep (C : Nat) {K V : Type} (f : K → V) :
    PoolState K V → PoolState K V → Prop
  | start (k : K) (pending running : List K) (done : List (K × V))
      (hfree : running.length < C) :
      PoolStep C f ⟨k :: pending, running, done⟩
        ⟨pending, running ++ [k], done⟩
  | finish (k : K) (pending pre post : List K) (done : List (K × V)) :
      PoolStep C f ⟨pending, pre ++ k :: post, done⟩
        ⟨pending, pre ++ post, (k, f k) :: done⟩

/-- States a batch can reach from its initial state. -/
def PoolReachable (C : Nat) {K V : Type} (f : K → V) (ids : List K)
    (s : PoolState K V) : Prop :=
  Relation.ReflTransGen (PoolStep C f) (poolInit ids) s

/-- ASCII `str.lower` on one character. -/
def pyLowerChar (c : Char) : Char :=
  match c with
  | 'A' => 'a' | 'B' => 'b' | 'C' => 'c' | 'D' => 'd' | 'E' => 'e'
  | 'F' => 'f' | 'G' => 'g' | 'H' => 'h' | 'I' => 'i' | 'J' => 'j'
  | 'K' => 'k' | 'L' => 'l' | 'M' => 'm' | 'N' => 'n' | 'O' => 'o'
  | 'P' => 'p' | 'Q' => 'q' | 'R' => 'r' | 'S' => 's' | 'T' => 't'
  | 'U' => 'u' | 'V' => 'v' | 'W' => 'w' | 'X' => 'x' | 'Y' => 'y'
  | 'Z' => 'z'
  | c => c

/-- ASCII `str.upper` on one character. -/
def pyUpperChar (c : Char) : Char :=
  match c with
  | 'a' => 'A' | 'b' => 'B' | 'c' => 'C' | 'd' => 'D' | 'e' => 'E'
  | 'f' => 'F' | 'g' => 'G' | 'h' => 'H' | 'i' => 'I' | 'j' => 'J'
  | 'k' => 'K' | 'l' => 'L' | 'm' => 'M' | 'n' => 'N' | 'o' => 'O'
  | 'p' => 'P' | 'q' => 'Q' | 'r' => 'R' | 's' => 'S' | 't' => 'T'
  | 'u' => 'U' | 'v' => 'V' | 'w' => 'W' | 'x' => 'X' | 'y' => 'Y'
  | 'z' => 'Z'
  | c => c

/-- Python `s.capitalize()`: first character uppercased, the rest
lowercased. -/
def pyCapitalize (s : String) : String :=
  match s.data with
  | [] => ""
  | c :: cs => String.mk (pyUpperChar c :: cs.map pyLowerChar)

/-- Python `s.lower()`. -/
def pyLower (s : String) : String := String.mk (s.data.map pyLowerChar)

/-- Model of `fetch_summary` (No_Incident_Number.py, lines 21–30): on
success return `body.get("summary", "Summary not available.")`; the broad
`except Exception` turns every failure into the same sentinel. -/
def fetch_summary (env : Env) (cid : Nat) : String :=
  match env cid with
  | HttpResult.ok body => (dlookup "summary" body).getD "Summary not available."
  | HttpResult.httpError => "Summary not available."
  | HttpResult.requestError => "Summary not available."

/-- Model of `fetch_sentiment` (No_Sentiments_No_Summary.py, lines 46–55):
`sentiment = body.get("overallSentiment", "")`, then
`sentiment.capitalize() if sentiment else None`; the bare `except:` turns
every failure into `None`. -/
def fetch_sentiment_nsns (env : Env) (cid : Nat) : Option String :=
  match env cid with
  | HttpResult.ok body =>
      let sentiment := (dlookup "overallSentiment" body).getD ""
      if sentiment = "" then none else some (pyCapitalize sentiment)
  | HttpResult.httpError => none
  | HttpResult.requestError => none

/-- Model of `fetch_sentiment` (Day_wise_analyzer.py, lines 90–98): on
success `body.get("overallSentiment", "Unknown").capitalize()`; the bare
`except:` turns every failure into `"Not Found"`. -/
def fetch_sentiment_dw (env : Env) (cid : Nat) : String :=
  match env cid with
  | HttpResult.ok body =>
      pyCapitalize ((dlookup "overallSentiment" body).getD "Unknown")
  | HttpResult.httpError => "Not Found"
  | HttpResult.requestError => "Not Found"

/-- Outcome of one HTTP GET against the transcription endpoint. -/
inductive TranscriptResult : Type
  /-- Status 2xx and a body of the shape
  `{"data": {"segments": [{"caller": …, "text": …}, …]}}`; each segment is
  the pair `(caller, text)`. -/
  | ok (segments : List (String × String))
  /-- Status 2xx but the body lacks `"data"` or `"segments"`:
  `response.json()["data"]["segments"]` raises `KeyError`. -/
  | badBody
  /-- Non-2xx status: `raise_for_status` raises `HTTPError`. -/
  | httpError
  /-- Request-level failure: `requests.get` raises a `RequestException`. -/
  | requestError
deriving DecidableEq

/-- Environment for the transcription endpoint. -/
def TEnv : Type := Nat → TranscriptResult

/-- Failure of the transcription request for `cid`: any outcome other than
a 2xx response with a well-formed body. -/
def tenvFails (tenv : TEnv) (cid : Nat) : Prop :=
  ∀ segments, tenv cid ≠ TranscriptResult.ok segments

/-- Model of `fetch_transcript` (Day_wise_analyzer.py, lines 62–69).  The
function body has no `try`/`except`: it joins the segments on success and
lets every failure escape to the caller, modelled as `Except.error`
carrying the exception's name. -/
def fetch_transcript_dw (tenv : TEnv) (cid : Nat) : Except String String :=
  match tenv cid with
  | TranscriptResult.ok segments =>
      Except.ok (String.intercalate "\n"
        (segments.map (fun s => s.1 ++ ": " ++ s.2)))
  | TranscriptResult.badBody => Except.error "KeyError"
  | TranscriptResult.httpError => Except.error "HTTPError"
  | TranscriptResult.requestError => Except.error "RequestException"

/-- Model of the transcript step of `process_call` (Day_wise_analyzer.py,
lines 158–161): `try: transcript = fetch_transcript(...)` with
`except: transcript = "Transcript not available."`. -/
def process_call_transcript (tenv : TEnv) (cid : Nat) : String :=
  match fetch_transcript_dw tenv cid with
  | Except.ok t => t
  | Except.error _ => "Transcript not available."

/-- Model of the `while retries < max_retries` loop of `get_summary`
(call.py, lines 19–31; `generate_summary` in Day_wise_analyzer.py, lines
72–87, has the same shape): attempt the Gemini call; on success return the
stripped response text, on exception sleep `2 ** retries + random()`
(capped at 30 in Day_wise_analyzer) and increment `retries`; when the loop
exits, return the fixed error string.  The Gemini service is modelled as a
function from the attempt number to `none` (the call raises) or
`some text` (the call returns, `text` being the stripped response text).
The model returns the result together with the number of Gemini calls
made. -/
def get_summary_go (gemini : Nat → Option String) (retries maxRetries : Nat) :
    String × Nat :=
  if retries < maxRetries then
    match gemini retries with
    | some text => (text, 1)
    | none =>
        let r := get_summary_go gemini (retries + 1) maxRetries
        (r.1, r.2 + 1)
  else ("Error: Gemini failed to generate summary.", 0)
termination_by maxRetries - retries

/-- Model of `get_summary(prompt, max_retries=5)` (call.py): the result and
the number of attempts made. -/
def get_summary (gemini : Nat → Option String) : String × Nat :=
  get_summary_go gemini 0 5

/-- Python regex `\w` on ASCII text: letters, digits, underscore. -/
def isWordChar (c : Char) : Bool := c.isAlphanum || c = '_'

/-- Model of `re.search(r"(INC\w+)", s)` on the character list of `s`: the
leftmost occurrence of `INC` followed by at least one word character,
extended greedily. -/
def findINC : List Char → Option (List Char)
  | 'I' :: 'N' :: 'C' :: d :: tail =>
      if isWordChar d then
        some ('I' :: 'N' :: 'C' :: d :: tail.takeWhile isWordChar)
      else findINC ('N' :: 'C' :: d :: tail)
  | _ :: rest => findINC rest
  | [] => none

/-- Model of `re.search(r"(INC\w+)", s)` returning the matched group. -/
def searchINC (s : String) : Option String :=
  (findINC s.data).map String.mk

/-- One note object, reduced to its optional `"note"` field;
`note_obj.get("note", "")` is `noteText`. -/
def noteText (note : Option String) : String := note.getD ""

/-- Loop body of `extract_incident`: scan the notes in order and return
the first match. -/
def extract_incident_go : List (Option String) → String
  | [] => "Not Found"
  | note :: rest =>
      match searchINC (noteText note) with
      | some m => m
      | none => extract_incident_go rest

/-- Model of `extract_incident(notes)` (Day_wise_analyzer.py, lines 52–59):
`if not notes: return "Not Found"` (`None` or the empty list), then return
the first regex match over the notes in order, else `"Not Found"`. -/
def extract_incident (notes : Option (List (Option String))) : String :=
  match notes with
  | none => "Not Found"
  | some l => extract_incident_go l

/-- Round half to even (Python `round` on exact values). -/
def roundHalfEven (q : ℚ) : ℤ :=
  if q - ⌊q⌋ < 1 / 2 then ⌊q⌋
  else if 1 / 2 < q - ⌊q⌋ then ⌊q⌋ + 1
  else if 2 ∣ ⌊q⌋ then ⌊q⌋ else ⌊q⌋ + 1

/-- Python `round(x, 1)`, idealized over exact rationals. -/
def pyRound1 (q : ℚ) : ℚ := (roundHalfEven (10 * q) : ℚ) / 10

/-- Row maximum `sim_matrix[i].max()`: largest similarity of work point `i`
to any of the `m` call points (only used with `0 < m`). -/
def rowMaxSim (sim : Nat → Nat → ℚ) (m i : Nat) : ℚ :=
  (((List.range m).map (fun j => sim i j)).max?).getD 0

/-- Column maximum `sim_matrix[:, j].max()`: largest similarity of call
point `j` to any of the `n` work points (only used with `0 < n`). -/
def colMaxSim (sim : Nat → Nat → ℚ) (n j : Nat) : ℚ :=
  (((List.range n).map (fun i => sim i j)).max?).getD 0

/-- Model of `compare_with_embeddings(work_points, call_points,
threshold=0.75)` (Call_vs_incident.py, lines 59–79).  The Gemini embedding
of the texts and the cosine similarity are external services; the
routine's own logic starts from the similarity matrix, modelled as
`sim i j : ℚ` for work index `i` and call index `j`.  It classifies each
work point by its row maximum, each call point by its column maximum, and
scores `len(matches) / max(len(call_points), 1) * 100` rounded to one
decimal.  `sklearn.metrics.pairwise.cosine_similarity` raises `ValueError`
when either input has zero samples (and `embed_text_list` of an empty list
yields an empty, not even two-dimensional, array), so when either point
list is empty the routine raises instead of returning; `none` models that
exception. -/
def compare_with_embeddings (sim : Nat → Nat → ℚ) (threshold : ℚ)
    (work_points call_points : List String) :
    Option (List String × List String × List String × ℚ) :=
  if work_points.length = 0 ∨ call_points.length = 0 then none
  else
    let n := work_points.length
    let m := call_points.length
    let matched := ((List.range n).filter
        (fun i => decide (threshold ≤ rowMaxSim sim m i))).map
      (fun i => work_points.getD i "")
    let extras := ((List.range n).filter
        (fun i => decide (rowMaxSim sim m i < threshold))).map
      (fun i => work_points.getD i "")
    let missing := ((List.range m).filter
        (fun j => decide (colMaxSim sim n j < threshold))).map
      (fun j => call_points.getD j "")
    let score := pyRound1 ((matched.length : ℚ) / (max m 1) * 100)
    some (matched, extras, missing, score)

/-- Concrete environment used by the witnesses: the request for call
identifier 1 returns a non-2xx status, every other identifier succeeds
with a positive sentiment. -/
def envW : Env := fun cid =>
  if cid = 1 then HttpResult.httpError
  else HttpResult.ok [("overallSentiment", "positive")]

/-! ## Support lemmas about the dict model -/

@[simp] theorem dkeys_nil {K V : Type} : dkeys ([] : List (K × V)) = [] := rfl

@[simp] theorem dkeys_cons {K V : Type} (p : K × V) (tl : List (K × V)) :
    dkeys (p :: tl) = p.1 :: dkeys tl := rfl

theorem dkeys_length {K V : Type} (d : List (K × V)) :
    (dkeys d).length = d.length := by
  simp [dkeys]

theorem dlookup_dinsert_self {K V : Type} [DecidableEq K]
    (k : K) (v : V) (d : List (K × V)) :
    dlookup k (dinsert k v d) = some v := by
  induction d with
  | nil => simp [dinsert, dlookup]
  | cons hd tl ih =>
      obtain ⟨k', v'⟩ := hd
      by_cases h : k' = k
      · simp [dinsert, dlookup, h]
      · simp [dinsert, dlookup, h, ih]

theorem dlookup_dinsert_other {K V : Type} [DecidableEq K]
    (k k' : K) (v : V) (d : List (K × V)) (hne : k' ≠ k) :
    dlookup k' (dinsert k v d) = dlookup k' d := by
  induction d with
  | nil => simp [dinsert, dlookup, Ne.symm hne]
  | cons p tl ih =>
      obtain ⟨k₀, v₀⟩ := p
      by_cases h : k₀ = k
      · subst h
        simp [dinsert, dlookup, Ne.symm hne]
      · simp [dinsert, dlookup, h, ih]

/-- Inserting a key already present leaves the key list unchanged. -/
theorem dkeys_dinsert_mem {K V : Type} [DecidableEq K]
    (k : K) (v : V) (d : List (K × V)) (h : k ∈ dkeys d) :
    dkeys (dinsert k v d) = dkeys d := by
  induction d with
  | nil => simp at h
  | cons p tl ih =>
      obtain ⟨k₀, v₀⟩ := p
      by_cases hk : k₀ = k
      · simp [dinsert, hk]
      · have h' : k ∈ dkeys tl := by
          rcases List.mem_cons.1 (by simpa using h) with h | h
          · exact absurd h.symm hk
          · exact h
        simp [dinsert, hk, ih h']

/-- Inserting a fresh key appends it at the end of the key list. -/
theorem dkeys_dinsert_not_mem {K V : Type} [DecidableEq K]
    (k : K) (v : V) (d : List (K × V)) (h : k ∉ dkeys d) :
    dkeys (dinsert k v d) = dkeys d ++ [k] := by
  induction d with
  | nil => simp [dinsert]
  | cons p tl ih =>
      obtain ⟨k₀, v₀⟩ := p
      rw [dkeys_cons, List.mem_cons] at h
      push_neg at h
      simp [dinsert, Ne.symm h.1, ih h.2]

theorem mem_dkeys_dinsert {K V : Type} [DecidableEq K]
    (k k' : K) (v : V) (d : List (K × V)) :
    k' ∈ dkeys (dinsert k v d) ↔ k' = k ∨ k' ∈ dkeys d := by
  by_cases h : k ∈ dkeys d
  · rw [dkeys_dinsert_mem k v d h]
    constructor
    · exact Or.inr
    · rintro (rfl | h') <;> [exact h; exact h']
  · rw [dkeys_dinsert_not_mem k v d h]
    simp
    tauto

theorem dkeys_nodup_dinsert {K V : Type} [DecidableEq K]
    (k : K) (v : V) (d : List (K × V)) (hnd : (dkeys d).Nodup) :
    (dkeys (dinsert k v d)).Nodup := by
  by_cases h : k ∈ dkeys d
  · rw [dkeys_dinsert_mem k v d h]; exact hnd
  · rw [dkeys_dinsert_not_mem k v d h]
    simpa [List.nodup_append] using ⟨hnd, h⟩

/-! ## Support lemmas about the batch round -/

theorem runBatch_go_lookup {K V : Type} [DecidableEq K]
    (f : K → V) (order : List K) (acc : List (K × V)) (k : K) :
    dlookup k (order.foldl (fun acc k => dinsert k (f k) acc) acc) =
      if k ∈ order then some (f k) else dlookup k acc := by
  induction order generalizing acc with
  | nil => simp
  | cons hd tl ih =>
      by_cases h : k = hd
      · subst h
        simp only [List.foldl_cons, ih]
        by_cases hmem : k ∈ tl <;>
          simp [hmem, dlookup_dinsert_self]
      · simp only [List.foldl_cons, ih, dlookup_dinsert_other _ _ _ _ h]
        simp [h]

/-- Looking up a key in the batch result: present with value `f k` exactly
when `k` was submitted, independent of completion order. -/
theorem runBatch_lookup {K V : Type} [DecidableEq K]
    (f : K → V) (order : List K) (k : K) :
    dlookup k (runBatch f order) =
      if k ∈ order then some (f k) else none := by
  simpa [dlookup] using runBatch_go_lookup f order [] k

theorem runBatch_go_keys {K V : Type} [DecidableEq K]
    (f : K → V) (order : List K) (acc : List (K × V)) (k : K) :
    k ∈ dkeys (order.foldl (fun acc k => dinsert k (f k) acc) acc) ↔
      k ∈ order ∨ k ∈ dkeys acc := by
  induction order generalizing acc with
  | nil => simp
  | cons hd tl ih =>
      simp only [List.foldl_cons, ih, mem_dkeys_dinsert, List.mem_cons]
      tauto

theorem runBatch_mem_keys {K V : Type} [DecidableEq K]
    (f : K → V) (order : List K) (k : K) :
    k ∈ dkeys (runBatch f order) ↔ k ∈ order := by
  simpa [dkeys] using runBatch_go_keys f order [] k

theorem runBatch_go_nodup {K V : Type} [DecidableEq K]
    (f : K → V) (order : List K) (acc : List (K × V))
    (h : (dkeys acc).Nodup) :
    (dkeys (order.foldl (fun acc k => dinsert k (f k) acc) acc)).Nodup := by
  induction order generalizing acc with
  | nil => simpa
  | cons hd tl ih =>
      simp only [List.foldl_cons]
      exact ih _ (dkeys_nodup_dinsert _ _ _ h)

/-- Keys of the batch result carry no duplicates: each identifier is
covered exactly once. -/
theorem runBatch_keys_nodup {K V : Type} [DecidableEq K]
    (f : K → V) (order : List K) :
    (dkeys (runBatch f order)).Nodup :=
  runBatch_go_nodup f order [] (by simp)

/-- Key list of the batch result is a permutation of the distinct
submitted identifiers. -/
theorem runBatch_keys_perm_dedup {K V : Type} [DecidableEq K]
    (f : K → V) (order : List K) :
    (dkeys (runBatch f order)).Perm order.dedup := by
  rw [List.perm_ext_iff_of_nodup (runBatch_keys_nodup f order) (List.nodup_dedup order)]
  intro a
  rw [runBatch_mem_keys, List.mem_dedup]

/-- Batch result has exactly one entry per distinct submitted
identifier. -/
theorem runBatch_length {K V : Type} [DecidableEq K]
    (f : K → V) (order : List K) :
    (runBatch f order).length = order.dedup.length := by
  rw [← dkeys_length, (runBatch_keys_perm_dedup f order).length_eq]

/-! ## Support lemmas about the worker pool -/

/-- In every reachable state of a pool of `C` workers, at most `C` fetches
are in flight. -/
theorem pool_bounded {C : Nat} {K V : Type} (f : K → V) (ids : List K)
    (s : PoolState K V) (h : PoolReachable C f ids s) :
    s.running.length ≤ C := by
  induction h with
  | refl => simp [poolInit]
  | tail _ hstep ih =>
      cases hstep with
      | start k pending running done hfree =>
          simpa using hfree
      | finish k pending pre post done =>
          simp only at ih ⊢
          simp only [List.length_append, List.length_cons] at ih ⊢
          omega

/-! ## Support lemmas about the string primitives -/

/-- Lowercasing never yields an uppercase `F`. -/
theorem pyLowerChar_ne_F (c : Char) : pyLowerChar c ≠ 'F' := by
  unfold pyLowerChar
  split <;> first | decide | assumption

/-- Python `capitalize` lowercases everything after the first character,
so it can never produce the failure sentinel `"Not Found"`, whose fifth
character is an uppercase `F`. -/
theorem pyCapitalize_ne_notFound (s : String) :
    pyCapitalize s ≠ "Not Found" := by
  unfold pyCapitalize
  split
  · decide
  · next c cs _ =>
      intro h
      have hd : pyUpperChar c :: cs.map pyLowerChar = "Not Found".data :=
        congrArg String.data h
      injection hd with _ htail
      have hmem : 'F' ∈ cs.map pyLowerChar := by
        rw [htail]; decide
      obtain ⟨a, _, ha⟩ := List.mem_map.1 hmem
      exact pyLowerChar_ne_F a ha

/-! ## Support lemmas about the retry loop -/

/-- Retry loop: at most `maxRetries - retries` further attempts are
made. -/
theorem get_summary_go_calls_le (gemini : Nat → Option String)
    (retries maxRetries : Nat) :
    (get_summary_go gemini retries maxRetries).2 ≤ maxRetries - retries := by
  have H : ∀ n retries, maxRetries - retries = n →
      (get_summary_go gemini retries maxRetries).2 ≤ maxRetries - retries := by
    intro n
    induction n with
    | zero =>
        intro retries hn
        rw [get_summary_go, if_neg (by omega)]
        simp
    | succ n ih =>
        intro retries hn
        rw [get_summary_go, if_pos (by omega)]
        cases hg : gemini retries with
        | some text => simp; omega
        | none =>
            have := ih (retries + 1) (by omega)
            simp only []
            omega
  exact H _ retries rfl

/-- Retry loop: if every attempt up to exhaustion raises, the loop returns
the fixed error sentinel after exactly the allowed number of attempts. -/
theorem get_summary_go_all_fail (gemini : Nat → Option String)
    (retries maxRetries : Nat)
    (hfail : ∀ k, retries ≤ k → k < maxRetries → gemini k = none) :
    get_summary_go gemini retries maxRetries =
      ("Error: Gemini failed to generate summary.", maxRetries - retries) := by
  have H : ∀ n retries, maxRetries - retries = n →
      (∀ k, retries ≤ k → k < maxRetries → gemini k = none) →
      get_summary_go gemini retries maxRetries =
        ("Error: Gemini failed to generate summary.", maxRetries - retries) := by
    intro n
    induction n with
    | zero =>
        intro retries hn _
        rw [get_summary_go, if_neg (by omega)]
        simp
        omega
    | succ n ih =>
        intro retries hn hf
        rw [get_summary_go, if_pos (by omega)]
        rw [hf retries le_rfl (by omega)]
        have := ih (retries + 1) (by omega) (fun k hk₁ hk₂ => hf k (by omega) hk₂)
        simp only [this]
        simp
        omega
  exact H _ retries rfl hfail

/-- Retry loop: if attempt `k` is the first to succeed (within the retry
budget), the loop returns its text, having made `k - retries + 1` calls. -/
theorem get_summary_go_first_success (gemini : Nat → Option String)
    (retries maxRetries k : Nat) (text : String)
    (hk₁ : retries ≤ k) (hk₂ : k < maxRetries)
    (hbefore : ∀ j, retries ≤ j → j < k → gemini j = none)
    (hk : gemini k = some text) :
    get_summary_go gemini retries maxRetries = (text, k - retries + 1) := by
  have H : ∀ n retries, k - retries = n → retries ≤ k →
      (∀ j, retries ≤ j → j < k → gemini j = none) →
      get_summary_go gemini retries maxRetries = (text, k - retries + 1) := by
    intro n
    induction n with
    | zero =>
        intro retries hn hr _
        have : k = retries := by omega
        subst this
        rw [get_summary_go, if_pos (by omega), hk]
        simp
    | succ n ih =>
        intro retries hn hr hb
        rw [get_summary_go, if_pos (by omega)]
        rw [hb retries le_rfl (by omega)]
        have := ih (retries + 1) (by omega) (by omega)
          (fun j hj hjk => hb j (by omega) hjk)
        simp only [this]
        simp
        omega
  exact H _ retries rfl hk₁ hbefore

/-! ## Support lemmas about `compare_with_embeddings` -/

/-- Reading every position of a list back in order yields the list. -/
theorem map_getD_range (l : List String) :
    (List.range l.length).map (fun i => l.getD i "") = l := by
  apply List.ext_getElem (by simp)
  intro i h₁ h₂
  simp only [List.getElem_map, List.getElem_range]
  exact List.getD_eq_getElem l "" h₂

/-- Two classification branches of the loop partition the work points. -/
theorem matches_extras_perm (sim : Nat → Nat → ℚ) (threshold : ℚ)
    (work_points : List String) (m : Nat) :
    ((((List.range work_points.length).filter
        (fun i => decide (threshold ≤ rowMaxSim sim m i))).map
      (fun i => work_points.getD i "")) ++
     (((List.range work_points.length).filter
        (fun i => decide (rowMaxSim sim m i < threshold))).map
      (fun i => work_points.getD i ""))).Perm work_points := by
  have hfun : (fun i => decide (rowMaxSim sim m i < threshold))
      = (fun i => !decide (threshold ≤ rowMaxSim sim m i)) := by
    funext i
    by_cases h : threshold ≤ rowMaxSim sim m i
    · simp [h, not_lt.2 h]
    · simp [h, lt_of_not_le h]
  rw [hfun, ← List.map_append]
  have hperm := (List.filter_append_perm
      (fun i => decide (threshold ≤ rowMaxSim sim m i))
      (List.range work_points.length)).map (fun i => work_points.getD i "")
  exact hperm.trans (by rw [map_getD_range])

/-! ## Claim theorems -/

/-- C1: failure isolation of the batch fetch.  For every environment and
every completion order of the submitted identifiers, every identifier
whose fetch fails (non-2xx status or request exception — the failures the
HTTP layer produces, all caught by `get_sentiment` and converted to the
`("unknown", "Not found")` marker) appears in the ResultMap with that
marker, every identifier whose fetch succeeds appears with its real
fetched sentiment and status `"OK"`, and no identifier is dropped; one
item's failure never aborts the batch or affects sibling items. -/
theorem claim_C1_failure_isolation (env : Env) (call_ids order : List Nat)
    (hperm : order.Perm call_ids) :
    ∀ cid ∈ call_ids,
      (dlookup cid (fetch_all_sentiments env order)).isSome = true ∧
      (envFails env cid →
        dlookup cid (fetch_all_sentiments env order) =
          some ("unknown", "Not found")) ∧
      (∀ body, env cid = HttpResult.ok body →
        dlookup cid (fetch_all_sentiments env order) =
          some ((dlookup "overallSentiment" body).getD "unknown", "OK")) := by
  intro cid hmem
  have hmem' : cid ∈ order := hperm.mem_iff.2 hmem
  have hlook := runBatch_lookup (get_sentiment env) order cid
  rw [if_pos hmem'] at hlook
  refine ⟨?_, ?_, ?_⟩
  · rw [show fetch_all_sentiments env order = runBatch (get_sentiment env) order from rfl,
      hlook]
    rfl
  · intro hfail
    rw [show fetch_all_sentiments env order = runBatch (get_sentiment env) order from rfl,
      hlook]
    rcases hfail with h | h <;> simp [get_sentiment, h]
  · intro body hbody
    rw [show fetch_all_sentiments env order = runBatch (get_sentiment env) order from rfl,
      hlook]
    simp [get_sentiment, hbody]

/-- C1 witness: with identifiers `[1, 2]`, completion order `[2, 1]`, and
an environment failing exactly on identifier 1, the ResultMap marks 1 as
`("unknown", "Not found")` and carries the real sentiment for 2. -/
theorem claim_C1_failure_isolation_witness :
    (dlookup 1 (fetch_all_sentiments envW [2, 1]) =
      some ("unknown", "Not found")) ∧
    (dlookup 2 (fetch_all_sentiments envW [2, 1]) =
      some ("positive", "OK")) := by
  have h1 := (claim_C1_failure_isolation envW [1, 2] [2, 1] (by decide)) 1 (by decide)
  have h2 := (claim_C1_failure_isolation envW [1, 2] [2, 1] (by decide)) 2 (by decide)
  refine ⟨h1.2.1 (by decide), ?_⟩
  have := h2.2.2 [("overallSentiment", "positive")] (by decide)
  rw [this]
  rfl

/-- C2: coverage of the ResultMap.  For every environment and every
completion order of the submitted identifiers, the ResultMap's keys are
exactly the submitted identifiers, each covered exactly once (no duplicate
keys); the number of entries is the number of distinct submitted
identifiers, hence exactly `N` when the `N` submitted identifiers carry no
duplicates. -/
theorem claim_C2_coverage (env : Env) (call_ids order : List Nat)
    (hperm : order.Perm call_ids) :
    (dkeys (fetch_all_sentiments env order)).Nodup ∧
    (∀ k, k ∈ dkeys (fetch_all_sentiments env order) ↔ k ∈ call_ids) ∧
    (fetch_all_sentiments env order).length = call_ids.dedup.length ∧
    (call_ids.Nodup →
      (fetch_all_sentiments env order).length = call_ids.length) := by
  have hlen : (fetch_all_sentiments env order).length = call_ids.dedup.length := by
    rw [show fetch_all_sentiments env order = runBatch (get_sentiment env) order from rfl,
      runBatch_length, hperm.dedup.length_eq]
  refine ⟨runBatch_keys_nodup _ _, ?_, hlen, ?_⟩
  · intro k
    rw [show fetch_all_sentiments env order = runBatch (get_sentiment env) order from rfl,
      runBatch_mem_keys]
    exact hperm.mem_iff
  · intro hnd
    rw [hlen, hnd.dedup]

/-- C2 witness: identifiers `[1, 2, 1]` (a duplicate), completion order
`[1, 1, 2]`: the ResultMap has nodup keys covering `{1, 2}` and exactly 2
entries, the count of distinct identifiers. -/
theorem claim_C2_coverage_witness :
    (dkeys (fetch_all_sentiments envW [1, 1, 2])).Nodup ∧
    (∀ k, k ∈ dkeys (fetch_all_sentiments envW [1, 1, 2]) ↔ k ∈ [1, 2, 1]) ∧
    (fetch_all_sentiments envW [1, 1, 2]).length =
      ([1, 2, 1] : List Nat).dedup.length ∧
    (([1, 2, 1] : List Nat).Nodup →
      (fetch_all_sentiments envW [1, 1, 2]).length = ([1, 2, 1] : List Nat).length) :=
  claim_C2_coverage envW [1, 2, 1] [1, 1, 2] (by decide)

/-- C6: idempotence of the fetcher.  Two runs over the same identifiers
with the same (deterministic) environment yield ResultMaps with identical
key-to-value content, whatever the two completion orders were. -/
theorem claim_C6_idempotent (env : Env) (call_ids order₁ order₂ : List Nat)
    (h₁ : order₁.Perm call_ids) (h₂ : order₂.Perm call_ids) (k : Nat) :
    dlookup k (fetch_all_sentiments env order₁) =
      dlookup k (fetch_all_sentiments env order₂) := by
  rw [show fetch_all_sentiments env order₁ = runBatch (get_sentiment env) order₁ from rfl,
    show fetch_all_sentiments env order₂ = runBatch (get_sentiment env) order₂ from rfl,
    runBatch_lookup, runBatch_lookup]
  by_cases h : k ∈ call_ids
  · rw [if_pos (h₁.mem_iff.2 h), if_pos (h₂.mem_iff.2 h)]
  · rw [if_neg (fun hc => h (h₁.mem_iff.1 hc)),
      if_neg (fun hc => h (h₂.mem_iff.1 hc))]

/-- C6 witness: identifiers `[1, 2]` fetched twice, once completing in
order `[1, 2]` and once in order `[2, 1]`: key 1 (and likewise any key)
reads back the same value from both ResultMaps. -/
theorem claim_C6_idempotent_witness :
    dlookup 1 (fetch_all_sentiments envW [1, 2]) =
      dlookup 1 (fetch_all_sentiments envW [2, 1]) :=
  claim_C6_idempotent envW [1, 2] [1, 2] [2, 1] (by decide) (by decide) 1

/-- C8: empty-input behavior.  With no submitted identifiers the
completion order is necessarily empty — no future is ever submitted, so no
`get_sentiment` call is made — and the returned ResultMap is empty; no
error is raised (the model is total). -/
theorem claim_C8_empty_input (env : Env) (order : List Nat)
    (hperm : order.Perm []) :
    order = [] ∧ fetch_all_sentiments env order = [] := by
  have h0 : order = [] := hperm.eq_nil
  subst h0
  exact ⟨rfl, rfl⟩

/-- C8 witness: the empty batch returns the empty ResultMap. -/
theorem claim_C8_empty_input_witness :
    ([] : List Nat) = [] ∧ fetch_all_sentiments envW [] = [] :=
  claim_C8_empty_input envW [] (List.Perm.refl [])

/-- C3 counterexample: `fetch_transcript` in Day_wise_analyzer.py (lines
62–69) has no `try`/`except`, so on a non-2xx HTTP status it propagates
the `HTTPError` raised by `raise_for_status` to its caller instead of
returning a "not available" sentinel — refuting the claim that all three
cited fetch functions degrade to a sentinel. -/
theorem claim_C3_counterexample :
    fetch_transcript_dw (fun _ => TranscriptResult.httpError) 7 =
      Except.error "HTTPError" := rfl

/-- C3 amended: `fetch_summary` (No_Incident_Number.py) and
`fetch_sentiment` (No_Sentiments_No_Summary.py) degrade absence of the
field, a non-2xx status and a request exception to their documented
sentinels (`"Summary not available."`, `None`); `fetch_transcript` in
Day_wise_analyzer.py instead propagates every failure (missing field,
non-2xx, request exception) as an exception to its caller, whose
`try`/`except` substitutes the sentinel `"Transcript not available."`. -/
theorem claim_C3_sentinel_degradation :
    (∀ env cid, envFails env cid →
      fetch_summary env cid = "Summary not available.") ∧
    (∀ env cid body, env cid = HttpResult.ok body →
      dlookup "summary" body = none →
      fetch_summary env cid = "Summary not available.") ∧
    (∀ env cid, envFails env cid → fetch_sentiment_nsns env cid = none) ∧
    (∀ env cid body, env cid = HttpResult.ok body →
      dlookup "overallSentiment" body = none →
      fetch_sentiment_nsns env cid = none) ∧
    (∀ tenv cid, tenvFails tenv cid →
      (∃ e, fetch_transcript_dw tenv cid = Except.error e) ∧
      process_call_transcript tenv cid = "Transcript not available.") := by
  refine ⟨?_, ?_, ?_, ?_, ?_⟩
  · intro env cid hfail
    rcases hfail with h | h <;> simp [fetch_summary, h]
  · intro env cid body hbody habsent
    simp [fetch_summary, hbody, habsent]
  · intro env cid hfail
    rcases hfail with h | h <;> simp [fetch_sentiment_nsns, h]
  · intro env cid body hbody habsent
    simp [fetch_sentiment_nsns, hbody, habsent]
  · intro tenv cid hfail
    cases htenv : tenv cid with
    | ok segments => exact absurd htenv (hfail segments)
    | badBody =>
        exact ⟨⟨"KeyError", by simp [fetch_transcript_dw, htenv]⟩,
          by simp [process_call_transcript, fetch_transcript_dw, htenv]⟩
    | httpError =>
        exact ⟨⟨"HTTPError", by simp [fetch_transcript_dw, htenv]⟩,
          by simp [process_call_transcript, fetch_transcript_dw, htenv]⟩
    | requestError =>
        exact ⟨⟨"RequestException", by simp [fetch_transcript_dw, htenv]⟩,
          by simp [process_call_transcript, fetch_transcript_dw, htenv]⟩

/-- C3 witness: identifier 1 fails in `envW`, so `fetch_summary` and
`fetch_sentiment` return their sentinels, and a non-2xx transcription
fetch makes the Day_wise caller substitute its own sentinel. -/
theorem claim_C3_sentinel_degradation_witness :
    fetch_summary envW 1 = "Summary not available." ∧
    fetch_sentiment_nsns envW 1 = none ∧
    process_call_transcript (fun _ => TranscriptResult.httpError) 0 =
      "Transcript not available." :=
  ⟨claim_C3_sentinel_degradation.1 envW 1 (by decide),
   claim_C3_sentinel_degradation.2.2.1 envW 1 (by decide),
   (claim_C3_sentinel_degradation.2.2.2.2 (fun _ => TranscriptResult.httpError) 0
     (fun segments h => TranscriptResult.noConfusion h)).2⟩

/-- C4 counterexample: a 2xx response whose JSON body lacks the
`overallSentiment` field is reported exactly like a successfully fetched
sentiment `"unknown"` — `("unknown", "OK")` via `.get("overallSentiment",
"unknown")` in Agents_dashboard.py line 48, and `"Unknown"` via
`.get("overallSentiment", "Unknown").capitalize()` in Day_wise_analyzer.py
line 96 — so the field-absent kind of unavailability is not distinguishable
in the output from a present-but-negative/neutral value, refuting the
claim. -/
theorem claim_C4_counterexample :
    get_sentiment (fun _ => HttpResult.ok []) 0 =
      get_sentiment (fun _ => HttpResult.ok [("overallSentiment", "unknown")]) 0 ∧
    fetch_sentiment_dw (fun _ => HttpResult.ok []) 0 =
      fetch_sentiment_dw (fun _ => HttpResult.ok [("overallSentiment", "unknown")]) 0 ∧
    get_sentiment (fun _ => HttpResult.ok []) 0 = ("unknown", "OK") ∧
    fetch_sentiment_dw (fun _ => HttpResult.ok []) 0 = "Unknown" :=
  ⟨rfl, rfl, rfl, rfl⟩

/-- C4 amended: the batch always completes with a result for every
submitted identifier, and a *failed fetch* is distinguishable in the
output from any successfully fetched value — in Agents_dashboard the
failure marker carries status `"Not found"` while every successful fetch
carries status `"OK"` (so a fetched sentiment of `"unknown"` is
distinguishable from a failed fetch), and in Day_wise_analyzer the failure
sentinel `"Not Found"` can never coincide with a successfully fetched
value, because `capitalize` lowercases every character after the first and
`"Not Found"` has an uppercase letter in fifth position.  The other kind
of unavailability, a 2xx body with the field *absent*, is not
distinguishable: it is reported identically to a successfully fetched
sentiment `"unknown"` on both pages. -/
theorem claim_C4_distinguishable (env : Env) (call_ids order : List Nat)
    (hperm : order.Perm call_ids) :
    (∀ cid ∈ call_ids,
      (dlookup cid (fetch_all_sentiments env order)).isSome = true) ∧
    (∀ cid, envFails env cid →
      get_sentiment env cid = ("unknown", "Not found")) ∧
    (∀ cid body, env cid = HttpResult.ok body →
      (get_sentiment env cid).2 = "OK") ∧
    ("OK" : String) ≠ "Not found" ∧
    (∀ cid, envFails env cid → fetch_sentiment_dw env cid = "Not Found") ∧
    (∀ cid body, env cid = HttpResult.ok body →
      fetch_sentiment_dw env cid ≠ "Not Found") ∧
    (∀ cid body, env cid = HttpResult.ok body →
      dlookup "overallSentiment" body = none →
      get_sentiment env cid =
        get_sentiment (fun _ => HttpResult.ok [("overallSentiment", "unknown")]) cid ∧
      fetch_sentiment_dw env cid =
        fetch_sentiment_dw (fun _ => HttpResult.ok [("overallSentiment", "unknown")]) cid) := by
  refine ⟨?_, ?_, ?_, by decide, ?_, ?_, ?_⟩
  · intro cid hmem
    have hmem' : cid ∈ order := hperm.mem_iff.2 hmem
    have hlook := runBatch_lookup (get_sentiment env) order cid
    rw [if_pos hmem'] at hlook
    rw [show fetch_all_sentiments env order = runBatch (get_sentiment env) order from rfl,
      hlook]
    rfl
  · intro cid hfail
    rcases hfail with h | h <;> simp [get_sentiment, h]
  · intro cid body hbody
    simp [get_sentiment, hbody]
  · intro cid hfail
    rcases hfail with h | h <;> simp [fetch_sentiment_dw, h]
  · intro cid body hbody
    rw [show fetch_sentiment_dw env cid =
        pyCapitalize ((dlookup "overallSentiment" body).getD "Unknown") by
      simp [fetch_sentiment_dw, hbody]]
    exact pyCapitalize_ne_notFound _
  · intro cid body hbody habsent
    constructor
    · rw [show get_sentiment env cid =
          ((dlookup "overallSentiment" body).getD "unknown", "OK") by
        simp [get_sentiment, hbody]]
      rw [habsent]
      rfl
    · rw [show fetch_sentiment_dw env cid =
          pyCapitalize ((dlookup "overallSentiment" body).getD "Unknown") by
        simp [fetch_sentiment_dw, hbody]]
      rw [habsent]
      rfl

/-- C4 witness: under `envW`, identifier 1 fails and identifier 2
succeeds; both are reported, the failure is marked `("unknown", "Not
found")`, the Day_wise sentinel differs from the fetched value, and the
field-absent body reads back exactly like a fetched `"unknown"`. -/
theorem claim_C4_distinguishable_witness :
    (dlookup 1 (fetch_all_sentiments envW [2, 1])).isSome = true ∧
    get_sentiment envW 1 = ("unknown", "Not found") ∧
    fetch_sentiment_dw envW 1 = "Not Found" ∧
    fetch_sentiment_dw envW 2 ≠ "Not Found" ∧
    get_sentiment (fun _ => HttpResult.ok []) 3 =
      get_sentiment (fun _ => HttpResult.ok [("overallSentiment", "unknown")]) 3 := by
  have h := claim_C4_distinguishable envW [1, 2] [2, 1] (by decide)
  have h' := claim_C4_distinguishable (fun _ => HttpResult.ok []) [3] [3] (by decide)
  exact ⟨h.1 1 (by decide), h.2.1 1 (by decide), h.2.2.2.2.1 1 (by decide),
    h.2.2.2.2.2.1 2 [("overallSentiment", "positive")] (by decide),
    (h'.2.2.2.2.2.2 3 [] rfl rfl).1⟩

/-- C5: bounded concurrency.  In the worker-pool model of
`ThreadPoolExecutor`, every state reachable during a batch has at most `C`
fetches in flight — instantiated at `C = 10` with the `get_sentiment`
worker of Agents_dashboard.py (line 60) and at `C = 5` with the
`fetch_sentiment` worker of Day_wise_analyzer.py (line 177); the fetcher
never issues unbounded concurrent outbound requests. -/
theorem claim_C5_bounded_concurrency (env : Env) (ids : List Nat)
    (s₁ : PoolState Nat (String × String)) (s₂ : PoolState Nat String)
    (h₁ : PoolReachable 10 (get_sentiment env) ids s₁)
    (h₂ : PoolReachable 5 (fetch_sentiment_dw env) ids s₂) :
    s₁.running.length ≤ 10 ∧ s₂.running.length ≤ 5 :=
  ⟨pool_bounded _ _ _ h₁, pool_bounded _ _ _ h₂⟩

/-- C5 witness: a batch over `[1, 2, 3]` that has started its first task
is a reachable state with in-flight count within both bounds. -/
theorem claim_C5_bounded_concurrency_witness :
    (PoolState.mk [2, 3] [1] [] : PoolState Nat (String × String)).running.length ≤ 10 ∧
    (PoolState.mk [2, 3] [1] [] : PoolState Nat String).running.length ≤ 5 :=
  claim_C5_bounded_concurrency envW [1, 2, 3] _ _
    (Relation.ReflTransGen.single
      (PoolStep.start 1 [2, 3] [] [] (by decide)))
    (Relation.ReflTransGen.single
      (PoolStep.start 1 [2, 3] [] [] (by decide)))

/-- C7: capped retry at the summary-generation endpoint.  `get_summary`
attempts the Gemini call at most 5 times, always terminates (the model is
a total function), returns the fixed error-sentinel string after
exhausting all 5 attempts, and returns the first successful response text
otherwise. -/
theorem claim_C7_capped_retry (gemini : Nat → Option String) :
    (get_summary gemini).2 ≤ 5 ∧
    ((∀ k, k < 5 → gemini k = none) →
      get_summary gemini = ("Error: Gemini failed to generate summary.", 5)) ∧
    (∀ k text, k < 5 → (∀ j, j < k → gemini j = none) →
      gemini k = some text → get_summary gemini = (text, k + 1)) := by
  refine ⟨?_, ?_, ?_⟩
  · simpa using get_summary_go_calls_le gemini 0 5
  · intro h
    simpa [get_summary] using
      get_summary_go_all_fail gemini 0 5 (fun k _ hk => h k hk)
  · intro k text hk hbefore hsucc
    simpa [get_summary] using
      get_summary_go_first_success gemini 0 5 k text (Nat.zero_le k) hk
        (fun j _ hj => hbefore j hj) hsucc

/-- C7 witness: a Gemini service that raises on every attempt is retried
exactly 5 times and then yields the fixed error sentinel. -/
theorem claim_C7_capped_retry_witness :
    (get_summary (fun _ => none)).2 ≤ 5 ∧
    get_summary (fun _ => none) =
      ("Error: Gemini failed to generate summary.", 5) :=
  ⟨(claim_C7_capped_retry (fun _ => none)).1,
   (claim_C7_capped_retry (fun _ => none)).2.1 (fun _ _ => rfl)⟩

/-- C9: `extract_incident` is total (a Lean function by construction); it
returns `"Not Found"` on `None`, on the empty list, and when no note's
text contains a token matching `INC\w+`; otherwise it returns the leftmost
such token of the first note (in list order) whose text contains one. -/
theorem claim_C9_extract_incident :
    extract_incident none = "Not Found" ∧
    extract_incident (some []) = "Not Found" ∧
    (∀ l, (∀ n ∈ l, searchINC (noteText n) = none) →
      extract_incident (some l) = "Not Found") ∧
    (∀ pre note post t, (∀ n ∈ pre, searchINC (noteText n) = none) →
      searchINC (noteText note) = some t →
      extract_incident (some (pre ++ note :: post)) = t) := by
  have hnone : ∀ l, (∀ n ∈ l, searchINC (noteText n) = none) →
      extract_incident_go l = "Not Found" := by
    intro l
    induction l with
    | nil => intro _; rfl
    | cons note rest ih =>
        intro h
        rw [extract_incident_go, h note (List.mem_cons_self note rest)]
        exact ih (fun n hn => h n (List.mem_cons_of_mem note hn))
  have hfirst : ∀ pre note post t, (∀ n ∈ pre, searchINC (noteText n) = none) →
      searchINC (noteText note) = some t →
      extract_incident_go (pre ++ note :: post) = t := by
    intro pre
    induction pre with
    | nil =>
        intro note post t _ hnote
        rw [List.nil_append, extract_incident_go, hnote]
    | cons p rest ih =>
        intro note post t hpre hnote
        rw [List.cons_append, extract_incident_go,
          hpre p (List.mem_cons_self p rest)]
        exact ih note post t (fun n hn => hpre n (List.mem_cons_of_mem p hn)) hnote
  exact ⟨rfl, rfl, fun l h => hnone l h,
    fun pre note post t h₁ h₂ => hfirst pre note post t h₁ h₂⟩

/-- C9 witness: the first note carries no incident token, the second
yields `INC00123` (the match stops at the space). -/
theorem claim_C9_extract_incident_witness :
    extract_incident
      (some [some "call went fine", some "raised INC00123 for follow-up"]) =
      "INC00123" :=
  claim_C9_extract_incident.2.2.2 [some "call went fine"]
    (some "raised INC00123 for follow-up") [] "INC00123"
    (by intro n hn; simp only [List.mem_singleton] at hn; subst hn; rfl)
    (by rfl)

/-- C10 counterexample: with a nonempty work-point list and an empty
call-point list, `compare_with_embeddings` raises (the similarity
computation rejects a zero-sample input) instead of returning lists, so
the work point `"a"` is placed in neither `matches` nor `extras` —
refuting the claim that every input is partitioned. -/
theorem claim_C10_counterexample :
    compare_with_embeddings (fun _ _ => 0) (3 / 4) ["a"] [] = none := rfl

/-- C10 amended: provided both point lists are nonempty (otherwise the
similarity computation raises `ValueError` and nothing is returned),
`compare_with_embeddings` partitions the work points — `matches` and
`extras` together are a permutation of the work points, with `matches`
exactly those whose maximum similarity to any call point meets the
threshold — `missing` consists exactly of the call points whose maximum
similarity to any work point is below the threshold, and the score is
`100 * |matches| / max(|call_points|, 1)` rounded to one decimal (so it
can exceed 100 when matched work points outnumber call points). -/
theorem claim_C10_partition (sim : Nat → Nat → ℚ) (threshold : ℚ)
    (work_points call_points : List String)
    (hw : work_points ≠ []) (hc : call_points ≠ []) :
    (compare_with_embeddings sim threshold work_points call_points).isSome = true ∧
    ∀ matched extras missing score,
      compare_with_embeddings sim threshold work_points call_points =
        some (matched, extras, missing, score) →
      (matched ++ extras).Perm work_points ∧
      matched.length + extras.length = work_points.length ∧
      matched = ((List.range work_points.length).filter
          (fun i => decide (threshold ≤ rowMaxSim sim call_points.length i))).map
        (fun i => work_points.getD i "") ∧
      missing = ((List.range call_points.length).filter
          (fun j => decide (colMaxSim sim work_points.length j < threshold))).map
        (fun j => call_points.getD j "") ∧
      (∀ x ∈ missing, x ∈ call_points) ∧
      score = pyRound1 ((matched.length : ℚ) / (max call_points.length 1) * 100) := by
  have hcond : ¬(work_points.length = 0 ∨ call_points.length = 0) := by
    push_neg
    exact ⟨fun h => hw (List.length_eq_zero.1 h),
      fun h => hc (List.length_eq_zero.1 h)⟩
  have hkey : compare_with_embeddings sim threshold work_points call_points =
      some
        (((List.range work_points.length).filter
            (fun i => decide (threshold ≤ rowMaxSim sim call_points.length i))).map
          (fun i => work_points.getD i ""),
         ((List.range work_points.length).filter
            (fun i => decide (rowMaxSim sim call_points.length i < threshold))).map
          (fun i => work_points.getD i ""),
         ((List.range call_points.length).filter
            (fun j => decide (colMaxSim sim work_points.length j < threshold))).map
          (fun j => call_points.getD j ""),
         pyRound1 (((((List.range work_points.length).filter
            (fun i => decide (threshold ≤ rowMaxSim sim call_points.length i))).map
          (fun i => work_points.getD i "")).length : ℚ) /
            (max call_points.length 1) * 100)) := by
    rw [compare_with_embeddings, if_neg hcond]
  refine ⟨by rw [hkey]; rfl, ?_⟩
  intro matched extras missing score h
  rw [hkey] at h
  simp only [Option.some.injEq, Prod.mk.injEq] at h
  obtain ⟨hM, hE, hMi, hs⟩ := h
  subst hM
  subst hE
  subst hMi
  subst hs
  have hperm := matches_extras_perm sim threshold work_points call_points.length
  refine ⟨hperm, ?_, rfl, rfl, ?_, rfl⟩
  · have := hperm.length_eq
    simpa [List.length_append] using this
  · intro x hx
    obtain ⟨j, hj, hjx⟩ := List.mem_map.1 hx
    have hjm : j < call_points.length :=
      List.mem_range.1 (List.mem_of_mem_filter hj)
    rw [← hjx, List.getD_eq_getElem call_points "" hjm]
    exact List.getElem_mem hjm

/-- C10 witness: three work points against one call point, all
similarities 1: the partition facts hold and the score formula yields a
value above 100. -/
theorem claim_C10_partition_witness :
    (compare_with_embeddings (fun _ _ => 1) (3 / 4) ["a", "b", "c"] ["x"]).isSome
      = true ∧
    (["a", "b", "c"] : List String) ≠ [] ∧ (["x"] : List String) ≠ [] :=
  ⟨(claim_C10_partition (fun _ _ => 1) (3 / 4) ["a", "b", "c"] ["x"]
      (by decide) (by decide)).1,
   by decide, by decide⟩

end CallCheck
